import Mathlib

/-!
Shallow embedding of the browser-based batch image converter.

Sources embedded:
- types.ts: OutputFormat, ProcessStatus, ProcessedFile, ResizeMode,
  ConversionSettings.
- services/imageService (src/unnamed/part_001): convertImage's target-dimension
  computation and failure paths, getExtensionFromMime.
- App (src/unnamed/part_000): startProcessing (error reset, skip of completed
  files, renaming, per-file status updates), handleDownloadFiles and the
  download wrappers, the Reset button's status update.

Modelling conventions:
- JS numbers are modelled as rationals (ℚ); Math.round x is ⌊x + 1/2⌋ (round
  half toward +∞), which is JS semantics for all finite inputs.
- Blobs are opaque tokens (ℕ).  Browser effects (image decode, canvas context
  acquisition, toBlob encoding) are oracle parameters, so convertImage becomes
  a pure function returning Except String Blob.
- JS string primitives used by the renaming logic (split('.'), trim) are
  modelled directly over the character list of the string.
- React setFiles updates keyed by unique id are modelled as per-index updates
  of the file list.
-/

/-- types.ts OutputFormat: the three target MIME types. -/
inductive OutputFormat where
  | jpeg
  | png
  | webp
deriving DecidableEq, Repr

/-- types.ts ProcessStatus. -/
inductive ProcessStatus where
  | idle
  | processing
  | completed
  | error
deriving DecidableEq, Repr

/-- types.ts ResizeMode = 'scale' | 'px' | 'cm'. -/
inductive ResizeMode where
  | scale
  | px
  | cm
deriving DecidableEq, Repr

/-- A Blob is opaque to the logic being verified; only identity matters. -/
abbrev Blob := ℕ

/-- types.ts ProcessedFile.  `originalName` stands for originalFile.name, the
only field of the original File the embedded logic reads. -/
structure ProcessedFile where
  id : String
  originalName : String
  previewUrl : String
  status : ProcessStatus
  outputBlob : Option Blob := none
  newName : Option String := none
  error : Option String := none
deriving DecidableEq, Repr

/-- types.ts ConversionSettings.  `width`/`height` are `number | ''` in the
source; the empty string becomes `none` (the source normalises with
`settings.width === '' ? null : Number(settings.width)`). -/
structure ConversionSettings where
  format : OutputFormat
  quality : ℚ
  resizeMode : ResizeMode
  scale : ℚ
  width : Option ℚ
  height : Option ℚ
  maintainAspectRatio : Bool
  baseFilename : String
  useSequentialNumbering : Bool
deriving DecidableEq, Repr

/-- JS Math.round for finite inputs: round half toward positive infinity. -/
def jsRound (q : ℚ) : ℤ := ⌊q + 1 / 2⌋

/-- imageService: `const CM_TO_PX = 37.795` (approx 96 DPI, 1cm = 37.795px). -/
def CM_TO_PX : ℚ := 37795 / 1000

/-- JS String.prototype.split('.') over the character list: splitting an empty
string yields `[""]`, and every '.' separates two (possibly empty) segments. -/
def splitDot : List Char → List (List Char)
  | [] => [[]]
  | c :: rest =>
    match splitDot rest with
    | [] => [[]]
    | g :: gs => if c = '.' then [] :: g :: gs else (c :: g) :: gs

/-- JS Array.prototype.join('.') over segments. -/
def joinDot : List (List Char) → List Char
  | [] => []
  | [g] => g
  | g :: gs => g ++ '.' :: joinDot gs

/-- App startProcessing line 106:
`fileItem.originalFile.name.split('.').slice(0, -1).join('.')`. -/
def originalBaseOf (name : String) : String :=
  ⟨joinDot ((splitDot name.data).dropLast)⟩

/-- JS String.prototype.trim: drop leading and trailing whitespace. -/
def jsTrim (s : String) : String :=
  ⟨((s.data.dropWhile Char.isWhitespace).reverse.dropWhile
      Char.isWhitespace).reverse⟩

/-- App startProcessing lines 104–117, the renaming logic: start from the
trimmed explicit override, fall back to the original name minus extension when
the trimmed override is empty, and append `_<index+1>` when sequential
numbering is enabled.  `index` is the file's position in the full files
array. -/
def computeBaseName (settings : ConversionSettings) (originalName : String)
    (index : ℕ) : String :=
  let originalBase := originalBaseOf originalName
  let trimmed := jsTrim settings.baseFilename
  let baseName := if trimmed = "" then originalBase else trimmed
  if settings.useSequentialNumbering then
    baseName ++ "_" ++ toString (index + 1)
  else baseName

/-- imageService getExtensionFromMime.  The source's `default: return 'jpg'`
arm is unreachable for values of the OutputFormat enum. -/
def getExtensionFromMime : OutputFormat → String
  | .jpeg => "jpg"
  | .png => "png"
  | .webp => "webp"

/-- The download filename `$\x7bfile.newName\x7d.$\x7bext\x7d` built in
handleDownloadFiles and handleDownloadSingle; a missing newName would render
as the string "undefined" in the template literal. -/
def zipFileName (settings : ConversionSettings) (f : ProcessedFile) : String :=
  (match f.newName with
    | some n => n
    | none => "undefined") ++ "." ++ getExtensionFromMime settings.format

/-- The full output filename for the file at `index`, as produced by a batch
run followed by a download: the base name computed by startProcessing plus the
extension mapped from the chosen format. -/
def outputFileName (settings : ConversionSettings) (originalName : String)
    (index : ℕ) : String :=
  computeBaseName settings originalName index ++ "."
    ++ getExtensionFromMime settings.format

/-- imageService convertImage lines 34–38: in cm mode a present requested
dimension is multiplied by CM_TO_PX; px-mode values and absent values pass
through unchanged. -/
def reqToPx (mode : ResizeMode) (v : Option ℚ) : Option ℚ :=
  if mode = .cm then v.map (fun x => x * CM_TO_PX) else v

/-- imageService convertImage lines 22–63: the target-dimension computation
before the minimum-1 clamp.  `imgW`, `imgH` are the decoded image's natural
pixel dimensions. -/
def computeRawDims (imgW imgH : ℕ) (settings : ConversionSettings) : ℤ × ℤ :=
  if settings.resizeMode = .scale then
    (jsRound ((imgW : ℚ) * settings.scale), jsRound ((imgH : ℚ) * settings.scale))
  else
    let reqW := reqToPx settings.resizeMode settings.width
    let reqH := reqToPx settings.resizeMode settings.height
    if settings.maintainAspectRatio then
      match reqW, reqH with
      | some w, some h =>
        let scaleW := w / (imgW : ℚ)
        let scaleH := h / (imgH : ℚ)
        let scale := min scaleW scaleH
        (jsRound ((imgW : ℚ) * scale), jsRound ((imgH : ℚ) * scale))
      | some w, none =>
        (jsRound w, jsRound ((imgH : ℚ) * (w / (imgW : ℚ))))
      | none, some h =>
        (jsRound ((imgW : ℚ) * (h / (imgH : ℚ))), jsRound h)
      | none, none => ((imgW : ℤ), (imgH : ℤ))
    else
      ((match reqW with
         | some w => jsRound w
         | none => (imgW : ℤ)),
       (match reqH with
         | some h => jsRound h
         | none => (imgH : ℤ)))

/-- imageService convertImage lines 65–67: clamp both dimensions to ≥ 1. -/
def computeTargetDims (imgW imgH : ℕ) (settings : ConversionSettings) :
    ℤ × ℤ :=
  let raw := computeRawDims imgW imgH settings
  (max 1 raw.1, max 1 raw.2)

/-- imageService convertImage with its browser effects as oracles: `decoded`
is the natural size of the decoded image (`none` when `img.onerror` fires),
`ctxOk` whether `canvas.getContext('2d')` returns a context, and `encode` the
result of `canvas.toBlob` on a canvas of the given target size (`none` when
the callback receives a null blob). -/
def convertImage (decoded : Option (ℕ × ℕ)) (ctxOk : Bool)
    (encode : ℤ × ℤ → Option Blob) (settings : ConversionSettings) :
    Except String Blob :=
  match decoded with
  | none => .error "Failed to load image"
  | some (imgW, imgH) =>
    let dims := computeTargetDims imgW imgH settings
    if ctxOk then
      match encode dims with
      | some blob => .ok blob
      | none => .error "Conversion failed"
    else .error "Could not get canvas context"

/-- The per-file state updates the App performs, one constructor per setFiles
(or in-place mutation) site touching a single file:
- markProcessing: startProcessing lines 100–102;
- markCompleted: startProcessing lines 124–131 (status := completed together
  with the output blob and computed name);
- markError: startProcessing lines 133–139;
- resetErrorToIdle: startProcessing lines 91–93 (error files reset to idle);
- resetAllToIdle: the Reset button, App lines 471–475. -/
inductive FileUpdate where
  | markProcessing
  | markCompleted (blob : Blob) (name : String)
  | markError (msg : String)
  | resetErrorToIdle
  | resetAllToIdle
deriving DecidableEq, Repr

/-- Apply one per-file update. -/
def applyUpdate : FileUpdate → ProcessedFile → ProcessedFile
  | .markProcessing, f => { f with status := .processing }
  | .markCompleted blob name, f =>
    { f with status := .completed, outputBlob := some blob,
             newName := some name }
  | .markError msg, f => { f with status := .error, error := some msg }
  | .resetErrorToIdle, f =>
    if f.status = .error then { f with status := .idle } else f
  | .resetAllToIdle, f => { f with status := .idle }

/-- App handleFilesSelected lines 35–40: a freshly added file is idle with no
output blob, no computed name and no error. -/
def mkProcessedFile (id originalName previewUrl : String) : ProcessedFile :=
  { id := id, originalName := originalName, previewUrl := previewUrl,
    status := .idle }

/-- startProcessing lines 91–93: before the pass, every error file is reset to
idle (all other statuses are untouched). -/
def resetErrors (files : List ProcessedFile) : List ProcessedFile :=
  files.map (applyUpdate .resetErrorToIdle)

/-- The final state of one file after the batch pass, given the outcome
`result` of convertImage for it: completed files are skipped (startProcessing
line 98); otherwise a successful conversion stores the blob and the computed
name and marks the file completed, and a failed one marks it error with the
error's message. -/
def processOne (settings : ConversionSettings) (index : ℕ) (f : ProcessedFile)
    (result : Except String Blob) : ProcessedFile :=
  if f.status = .completed then f
  else
    match result with
    | .ok blob =>
      applyUpdate
        (.markCompleted blob (computeBaseName settings f.originalName index)) f
    | .error e => applyUpdate (.markError e) f

/-- Process the tail of the files list whose first element sits at position
`index` of the full array; `results index` is the convertImage outcome for the
file at that position. -/
def processList (settings : ConversionSettings)
    (results : ℕ → Except String Blob) (index : ℕ) :
    List ProcessedFile → List ProcessedFile
  | [] => []
  | f :: rest =>
    processOne settings index f (results index)
      :: processList settings results (index + 1) rest

/-- App startProcessing lines 86–144, final files state: reset error files to
idle, then convert every non-completed file, naming each by its index in the
full files array. -/
def startProcessing (settings : ConversionSettings)
    (results : ℕ → Except String Blob) (files : List ProcessedFile) :
    List ProcessedFile :=
  processList settings results 0 (resetErrors files)

/-- The two bulk download modes of handleDownloadFiles. -/
inductive DownloadMode where
  | zip
  | raw
deriving DecidableEq, Repr

/-- The externally visible effect of a bulk download: either one zip archive
of named entries, or a sequence of individual FileSaver.saveAs calls. -/
inductive DownloadAction where
  | zipArchive (entries : List (String × Blob))
  | rawSaves (entries : List (String × Blob))
deriving DecidableEq, Repr

/-- App handleDownloadFiles line 148: keep only files that are completed and
have an output blob. -/
def readyOf (targetFiles : List ProcessedFile) : List ProcessedFile :=
  targetFiles.filter
    (fun f => f.status = ProcessStatus.completed ∧ f.outputBlob.isSome)

/-- App handleDownloadFiles lines 147–176: filter to ready files, return
without any effect when none remain, otherwise bundle every ready file that
has a blob (both branches re-check `file.outputBlob`) under its download
name. -/
def handleDownloadFiles (settings : ConversionSettings)
    (targetFiles : List ProcessedFile) (mode : DownloadMode) :
    Option DownloadAction :=
  let readyFiles := readyOf targetFiles
  if readyFiles.length = 0 then none
  else
    let entries := readyFiles.filterMap
      (fun f => f.outputBlob.map (fun b => (zipFileName settings f, b)))
    match mode with
    | .zip => some (.zipArchive entries)
    | .raw => some (.rawSaves entries)

/-- App onDownloadSelected lines 179–182: restrict to the selected ids, then
delegate to handleDownloadFiles. -/
def onDownloadSelected (settings : ConversionSettings)
    (files : List ProcessedFile) (selectedIds : List String)
    (mode : DownloadMode) : Option DownloadAction :=
  handleDownloadFiles settings
    (files.filter (fun f => selectedIds.contains f.id)) mode

/-- App onDownloadAll lines 184–186. -/
def onDownloadAll (settings : ConversionSettings)
    (files : List ProcessedFile) (mode : DownloadMode) :
    Option DownloadAction :=
  handleDownloadFiles settings files mode

/-- App lines 471–475, the Reset button: set every file's status to idle,
keeping all other fields. -/
def resetAll (files : List ProcessedFile) : List ProcessedFile :=
  files.map (applyUpdate .resetAllToIdle)

/-! Sample fixtures used by the witness theorems. -/

/-- A settings value with px resize mode, both dimensions requested, aspect
ratio preserved, empty base filename, sequential numbering on. -/
def sampleSettings : ConversionSettings :=
  { format := .png, quality := 9 / 10, resizeMode := .px, scale := 1,
    width := some 50, height := some 50, maintainAspectRatio := true,
    baseFilename := "", useSequentialNumbering := true }

/-- An idle file as produced by intake. -/
def sampleFile : ProcessedFile := mkProcessedFile "id1" "photo.png" "blob:1"

/-- A conversion oracle that always succeeds with blob token 7. -/
def okResults : ℕ → Except String Blob := fun _ => Except.ok 7

/-- C4: For every input image and every settings value, both final target
dimensions produced by the conversion engine are at least 1: the raw
resize-mode computation is clamped to a minimum of 1 componentwise. -/
theorem targetDims_at_least_one (imgW imgH : ℕ) (s : ConversionSettings) :
    1 ≤ (computeTargetDims imgW imgH s).1 ∧
    1 ≤ (computeTargetDims imgW imgH s).2 :=
  ⟨le_max_left _ _, le_max_left _ _⟩

/-- C2: In px or cm resize mode with aspect ratio preserved and both
dimensions given, the engine scales both natural dimensions by the smaller of
the two implied scale factors (requested width over natural width, requested
height over natural height, after cm inputs are converted to px) and rounds
each result: a contain fit. -/
theorem contain_fit (imgW imgH : ℕ) (s : ConversionSettings)
    (hmode : s.resizeMode = .px ∨ s.resizeMode = .cm)
    (har : s.maintainAspectRatio = true)
    (w h : ℚ) (hw : s.width = some w) (hh : s.height = some h) :
    computeRawDims imgW imgH s =
      (jsRound ((imgW : ℚ) *
        min ((if s.resizeMode = .cm then w * CM_TO_PX else w) / (imgW : ℚ))
            ((if s.resizeMode = .cm then h * CM_TO_PX else h) / (imgH : ℚ))),
       jsRound ((imgH : ℚ) *
        min ((if s.resizeMode = .cm then w * CM_TO_PX else w) / (imgW : ℚ))
            ((if s.resizeMode = .cm then h * CM_TO_PX else h) / (imgH : ℚ)))) := by
  rcases hmode with hm | hm <;>
    simp [computeRawDims, reqToPx, hm, har, hw, hh]

/-- Witness for C2 at a concrete input: a 100×50 image with a 50×50 px
request under sampleSettings. -/
theorem contain_fit_witness :
    (sampleSettings.resizeMode = ResizeMode.px ∨
      sampleSettings.resizeMode = ResizeMode.cm) ∧
    sampleSettings.maintainAspectRatio = true ∧
    computeRawDims 100 50 sampleSettings = (50, 25) := by
  refine ⟨Or.inl rfl, rfl, ?_⟩
  rw [contain_fit 100 50 sampleSettings (Or.inl rfl) rfl 50 50 rfl rfl]
  simp [sampleSettings, min_def]
  norm_num [jsRound]

/-- C3: In px or cm resize mode: with aspect ratio preserved and exactly one
dimension given, the given dimension is used (rounded) and the other is
derived from the source aspect ratio; with neither given, the natural size is
passed through; with aspect ratio not preserved, each given dimension is used
directly (rounded) and an absent one falls back to the original. -/
theorem partial_dims (imgW imgH : ℕ) (s : ConversionSettings)
    (hmode : s.resizeMode = .px ∨ s.resizeMode = .cm) :
    (∀ w : ℚ, s.maintainAspectRatio = true → s.width = some w →
      s.height = none →
      computeRawDims imgW imgH s =
        (jsRound (if s.resizeMode = .cm then w * CM_TO_PX else w),
         jsRound ((imgH : ℚ) *
           ((if s.resizeMode = .cm then w * CM_TO_PX else w) / (imgW : ℚ))))) ∧
    (∀ h : ℚ, s.maintainAspectRatio = true → s.width = none →
      s.height = some h →
      computeRawDims imgW imgH s =
        (jsRound ((imgW : ℚ) *
           ((if s.resizeMode = .cm then h * CM_TO_PX else h) / (imgH : ℚ))),
         jsRound (if s.resizeMode = .cm then h * CM_TO_PX else h))) ∧
    (s.maintainAspectRatio = true → s.width = none → s.height = none →
      computeRawDims imgW imgH s = ((imgW : ℤ), (imgH : ℤ))) ∧
    (s.maintainAspectRatio = false →
      computeRawDims imgW imgH s =
        (Option.elim s.width (imgW : ℤ)
          (fun w => jsRound (if s.resizeMode = .cm then w * CM_TO_PX else w)),
         Option.elim s.height (imgH : ℤ)
          (fun h => jsRound (if s.resizeMode = .cm then h * CM_TO_PX else h)))) := by
  refine ⟨?_, ?_, ?_, ?_⟩
  · intro w har hw hh
    rcases hmode with hm | hm <;>
      simp [computeRawDims, reqToPx, hm, har, hw, hh]
  · intro h har hw hh
    rcases hmode with hm | hm <;>
      simp [computeRawDims, reqToPx, hm, har, hw, hh]
  · intro har hw hh
    rcases hmode with hm | hm <;>
      simp [computeRawDims, reqToPx, hm, har, hw, hh]
  · intro har
    rcases hmode with hm | hm <;>
      cases hw : s.width <;> cases hh : s.height <;>
        simp [computeRawDims, reqToPx, hm, har, hw, hh]

/-- Witness for C3 at concrete inputs: a 100×50 image with only a width of
80 px requested (aspect preserved), and the same image with aspect ratio off
and only a height of 30 px requested. -/
theorem partial_dims_witness :
    computeRawDims 100 50
      { sampleSettings with width := some 80, height := none } = (80, 40) ∧
    computeRawDims 100 50
      { sampleSettings with
          maintainAspectRatio := false
          width := none
          height := some 30 } = (100, 30) := by
  constructor
  · have h := (partial_dims 100 50
      { sampleSettings with width := some 80, height := none }
      (Or.inl rfl)).1 80 rfl rfl rfl
    rw [h]
    simp [sampleSettings]
    norm_num [jsRound]
  · have h := (partial_dims 100 50
      { sampleSettings with
          maintainAspectRatio := false
          width := none
          height := some 30 } (Or.inl rfl)).2.2.2 rfl
    rw [h]
    simp [sampleSettings]
    norm_num [jsRound]

/-- C8: in cm mode each present requested dimension is multiplied by exactly
37.795 before the target-dimension computation (so cm mode coincides with px
mode on the converted inputs); absent inputs stay absent, and px-mode inputs
pass through unmultiplied. -/
theorem cm_converts_to_px (imgW imgH : ℕ) (s : ConversionSettings)
    (hcm : s.resizeMode = .cm) :
    (∀ x : ℚ, reqToPx .cm (some x) = some (x * (37795 / 1000))) ∧
    reqToPx .cm none = none ∧
    (∀ v : Option ℚ, reqToPx .px v = v) ∧
    computeRawDims imgW imgH s =
      computeRawDims imgW imgH
        { s with
            resizeMode := .px
            width := s.width.map (fun x => x * CM_TO_PX)
            height := s.height.map (fun x => x * CM_TO_PX) } := by
  refine ⟨fun x => rfl, rfl, fun v => by simp [reqToPx], ?_⟩
  rcases s with ⟨fmt, q, rm, sc, w, h, ar, bf, sn⟩
  cases hcm
  cases ar <;> cases w <;> cases h <;>
    simp [computeRawDims, reqToPx]

/-- Witness for C8 at a concrete input: 2cm requested width on a 100×50
image. -/
theorem cm_converts_to_px_witness :
    reqToPx .cm (some 2) = some (2 * (37795 / 1000)) ∧
    computeRawDims 100 50
      { sampleSettings with
          resizeMode := .cm
          width := some 2
          height := none } =
      computeRawDims 100 50
        { sampleSettings with
            resizeMode := .px
            width := some (2 * CM_TO_PX)
            height := none } := by
  have h := cm_converts_to_px 100 50
    { sampleSettings with
        resizeMode := .cm
        width := some 2
        height := none } rfl
  exact ⟨h.1 2, by simpa using h.2.2.2⟩

/-- Indexing a processed tail: the element at offset `i` of a tail starting
at array position `k` is the processOne image of the original element at
full-array position `k + i`. -/
theorem processList_getElem (settings : ConversionSettings)
    (results : ℕ → Except String Blob) :
    ∀ (l : List ProcessedFile) (k i : ℕ),
      (processList settings results k l)[i]? =
        (l[i]?).map fun f => processOne settings (k + i) f (results (k + i)) := by
  intro l
  induction l with
  | nil => intro k i; simp [processList]
  | cons f rest ih =>
    intro k i
    cases i with
    | zero => simp [processList]
    | succ j =>
      have hk : k + 1 + j = k + (j + 1) := by omega
      simp [processList, ih (k + 1) j, hk]

/-- Indexing the error-reset pass. -/
theorem resetErrors_getElem (files : List ProcessedFile) (i : ℕ) :
    (resetErrors files)[i]? = (files[i]?).map (applyUpdate .resetErrorToIdle) := by
  simp [resetErrors]

/-- The error-reset pass does not change a file's original name or whether it
counts as completed. -/
theorem resetErrorToIdle_preserves (f : ProcessedFile) :
    (applyUpdate .resetErrorToIdle f).originalName = f.originalName ∧
    ((applyUpdate .resetErrorToIdle f).status = ProcessStatus.completed ↔
      f.status = ProcessStatus.completed) := by
  simp only [applyUpdate]
  split <;> simp_all

/-- A successful conversion of a non-completed file stores the blob and the
computed base name and marks the file completed. -/
theorem processOne_ok (settings : ConversionSettings) (i : ℕ)
    (g : ProcessedFile) (blob : Blob) (h : g.status ≠ .completed) :
    processOne settings i g (.ok blob) =
      { g with
          status := .completed
          outputBlob := some blob
          newName := some (computeBaseName settings g.originalName i) } := by
  simp [processOne, h, applyUpdate]

/-- A failed conversion of a non-completed file marks it error with the
message, touching nothing else. -/
theorem processOne_err (settings : ConversionSettings) (i : ℕ)
    (g : ProcessedFile) (e : String) (h : g.status ≠ .completed) :
    processOne settings i g (.error e) =
      { g with
          status := .error
          error := some e } := by
  simp [processOne, h, applyUpdate]

/-- The computed name plus extension has exactly the shape the spec gives:
base (trimmed override or original minus extension), optional underscore and
1-based index, dot, mapped extension. -/
theorem computeBaseName_shape (settings : ConversionSettings) (name : String)
    (i : ℕ) :
    computeBaseName settings name i ++ "." ++
        getExtensionFromMime settings.format =
      (if jsTrim settings.baseFilename = "" then originalBaseOf name
        else jsTrim settings.baseFilename) ++
      (if settings.useSequentialNumbering then "_" ++ toString (i + 1)
        else "") ++
      "." ++
      (match settings.format with
        | .jpeg => "jpg"
        | .png => "png"
        | .webp => "webp") := by
  cases settings.format <;>
    cases hseq : settings.useSequentialNumbering <;>
    simp [computeBaseName, getExtensionFromMime, hseq, String.append_assoc,
      String.append_empty]

/-- C1: a file at position `i` of the full files array that is not already
completed and whose conversion succeeds ends the run with the computed name,
and its download filename is the base name (trimmed override if non-empty,
else original name minus extension), then `_<i+1>` exactly when sequential
numbering is on (the index taken in the full array, so stable across skips),
then a dot and the extension mapped JPEG→jpg, PNG→png, WEBP→webp. -/
theorem output_filename_shape (settings : ConversionSettings)
    (results : ℕ → Except String Blob) (files : List ProcessedFile)
    (i : ℕ) (f : ProcessedFile) (hf : files[i]? = some f)
    (hnc : f.status ≠ .completed) (blob : Blob)
    (hr : results i = .ok blob) :
    ∃ f', (startProcessing settings results files)[i]? = some f' ∧
      f'.newName = some (computeBaseName settings f.originalName i) ∧
      zipFileName settings f' =
        (if jsTrim settings.baseFilename = "" then originalBaseOf f.originalName
          else jsTrim settings.baseFilename) ++
        (if settings.useSequentialNumbering then "_" ++ toString (i + 1)
          else "") ++
        "." ++
        (match settings.format with
          | .jpeg => "jpg"
          | .png => "png"
          | .webp => "webp") := by
  have hidx : (startProcessing settings results files)[i]? =
      some (processOne settings i (applyUpdate .resetErrorToIdle f)
        (results i)) := by
    simp [startProcessing, processList_getElem, resetErrors_getElem, hf]
  have hstat : (applyUpdate .resetErrorToIdle f).status ≠
      ProcessStatus.completed := by
    intro hc
    exact hnc ((resetErrorToIdle_preserves f).2.mp hc)
  have hname : (applyUpdate .resetErrorToIdle f).originalName =
      f.originalName := (resetErrorToIdle_preserves f).1
  rw [hr] at hidx
  rw [processOne_ok settings i _ blob hstat] at hidx
  refine ⟨_, hidx, by simp [hname], ?_⟩
  simp only [zipFileName, hname]
  exact computeBaseName_shape settings f.originalName i

/-- Witness for C1: a single idle file processed under sampleSettings with a
conversion yielding blob 7. -/
theorem output_filename_shape_witness :
    ∃ f', (startProcessing sampleSettings okResults [sampleFile])[0]? =
        some f' ∧
      f'.newName =
        some (computeBaseName sampleSettings sampleFile.originalName 0) ∧
      zipFileName sampleSettings f' =
        (if jsTrim sampleSettings.baseFilename = "" then
            originalBaseOf sampleFile.originalName
          else jsTrim sampleSettings.baseFilename) ++
        (if sampleSettings.useSequentialNumbering then "_" ++ toString (0 + 1)
          else "") ++
        "." ++
        (match sampleSettings.format with
          | .jpeg => "jpg"
          | .png => "png"
          | .webp => "webp") :=
  output_filename_shape sampleSettings okResults [sampleFile] 0 sampleFile rfl
    (by decide) 7 rfl

/-- Splitting a dot-free character list yields the single segment itself. -/
theorem splitDot_no_dot (cs : List Char) (h : '.' ∉ cs) :
    splitDot cs = [cs] := by
  induction cs with
  | nil => rfl
  | cons c rest ih =>
    simp only [List.mem_cons, not_or] at h
    have hc : ¬ c = '.' := fun e => h.1 e.symm
    simp [splitDot, ih h.2, hc]

/-- A dot-free name has empty base: split('.') gives one segment,
slice(0, -1) drops it, join('.') of nothing is empty. -/
theorem originalBaseOf_no_dot (name : String) (h : '.' ∉ name.data) :
    originalBaseOf name = "" := by
  simp [originalBaseOf, splitDot_no_dot name.data h, joinDot]

/-- C10: with an empty (or whitespace-only) base filename override and an
original name containing no dot, the computed base name is empty — the
output file is named just `.<ext>`, or `_<n>.<ext>` with numbering on. -/
theorem empty_base_no_dot (settings : ConversionSettings) (name : String)
    (i : ℕ) (htrim : jsTrim settings.baseFilename = "")
    (hnd : '.' ∉ name.data) :
    computeBaseName settings name i =
      (if settings.useSequentialNumbering then "_" ++ toString (i + 1)
        else "") ∧
    outputFileName settings name i =
      (if settings.useSequentialNumbering then "_" ++ toString (i + 1)
        else "") ++ "." ++ getExtensionFromMime settings.format := by
  have hob := originalBaseOf_no_dot name hnd
  have h1 : computeBaseName settings name i =
      (if settings.useSequentialNumbering then "_" ++ toString (i + 1)
        else "") := by
    cases hseq : settings.useSequentialNumbering <;>
      simp [computeBaseName, htrim, hob, hseq, String.empty_append]
  exact ⟨h1, by simp [outputFileName, h1]⟩

/-- Witness for C10: the dot-free name "photo" under sampleSettings (empty
override, numbering on) at index 4 yields base "_5" and filename "_5.png". -/
theorem empty_base_no_dot_witness :
    computeBaseName sampleSettings "photo" 4 =
      (if sampleSettings.useSequentialNumbering then "_" ++ toString (4 + 1)
        else "") ∧
    outputFileName sampleSettings "photo" 4 =
      (if sampleSettings.useSequentialNumbering then "_" ++ toString (4 + 1)
        else "") ++ "." ++ getExtensionFromMime sampleSettings.format :=
  empty_base_no_dot sampleSettings "photo" 4 (by decide) (by decide)

/-- C5: when a batch run starts, a completed file is left entirely unchanged
by the run (status, blob and name included), and an error file has its status
reset to idle before conversion begins. -/
theorem run_skips_completed_resets_errors (settings : ConversionSettings)
    (results : ℕ → Except String Blob) (files : List ProcessedFile) (i : ℕ)
    (f : ProcessedFile) (hf : files[i]? = some f) :
    (f.status = .completed →
      (startProcessing settings results files)[i]? = some f) ∧
    (f.status = .error →
      (resetErrors files)[i]? = some { f with status := .idle }) := by
  constructor
  · intro hc
    have hres : applyUpdate .resetErrorToIdle f = f := by
      simp [applyUpdate, hc]
    have hpro : processOne settings i f (results i) = f := by
      simp [processOne, hc]
    simp [startProcessing, processList_getElem, resetErrors_getElem, hf,
      hres, hpro]
  · intro he
    simp [resetErrors_getElem, hf, applyUpdate, he]

/-- Witness for C5: a completed file with stored output survives a run
untouched, and an error file is reset to idle. -/
theorem run_skips_completed_resets_errors_witness :
    ((startProcessing sampleSettings okResults
        [{ sampleFile with
            status := ProcessStatus.completed
            outputBlob := some 3
            newName := some "old" }])[0]? =
      some { sampleFile with
              status := ProcessStatus.completed
              outputBlob := some 3
              newName := some "old" }) ∧
    ((resetErrors [{ sampleFile with status := ProcessStatus.error }])[0]? =
      some { { sampleFile with status := ProcessStatus.error } with
              status := ProcessStatus.idle }) :=
  ⟨(run_skips_completed_resets_errors sampleSettings okResults
      [{ sampleFile with
          status := ProcessStatus.completed
          outputBlob := some 3
          newName := some "old" }] 0 _ rfl).1 rfl,
   (run_skips_completed_resets_errors sampleSettings okResults
      [{ sampleFile with status := ProcessStatus.error }] 0 _ rfl).2 rfl⟩

/-- C6: across every per-file update the App performs, the output blob and
the computed name are assigned only by the completion update, which sets both
at once together with status completed; every other update (processing mark,
error mark, either status reset) leaves both fields exactly as they were, and
intake creates files with neither set. -/
theorem blob_name_only_with_completion :
    (∀ (u : FileUpdate) (f : ProcessedFile),
      (∀ (b : Blob) (n : String), u ≠ .markCompleted b n) →
      (applyUpdate u f).outputBlob = f.outputBlob ∧
      (applyUpdate u f).newName = f.newName) ∧
    (∀ (b : Blob) (n : String) (f : ProcessedFile),
      (applyUpdate (.markCompleted b n) f).status = .completed ∧
      (applyUpdate (.markCompleted b n) f).outputBlob = some b ∧
      (applyUpdate (.markCompleted b n) f).newName = some n) ∧
    (∀ id name url : String,
      (mkProcessedFile id name url).outputBlob = none ∧
      (mkProcessedFile id name url).newName = none) := by
  refine ⟨?_, ?_, ?_⟩
  · intro u f hu
    cases u with
    | markCompleted b n => exact absurd rfl (hu b n)
    | resetErrorToIdle =>
      simp only [applyUpdate]
      split <;> simp
    | _ => simp [applyUpdate]
  · intro b n f
    simp [applyUpdate]
  · intro id name url
    simp [mkProcessedFile]

/-- Witness for C6: the error mark leaves blob and name of a sample file
untouched, and a completion update sets both. -/
theorem blob_name_only_with_completion_witness :
    ((applyUpdate (.markError "boom") sampleFile).outputBlob =
        sampleFile.outputBlob ∧
      (applyUpdate (.markError "boom") sampleFile).newName =
        sampleFile.newName) ∧
    ((applyUpdate (.markCompleted 7 "out_1") sampleFile).status =
        ProcessStatus.completed ∧
      (applyUpdate (.markCompleted 7 "out_1") sampleFile).outputBlob =
        some 7 ∧
      (applyUpdate (.markCompleted 7 "out_1") sampleFile).newName =
        some "out_1") :=
  ⟨blob_name_only_with_completion.1 (.markError "boom") sampleFile
      (fun _ _ h => FileUpdate.noConfusion h),
   blob_name_only_with_completion.2.1 7 "out_1" sampleFile⟩

/-- C7: convertImage rejects with "Failed to load image" when decoding fails
and with "Conversion failed" when encoding yields no blob; and the
orchestrator turns a rejected conversion into status error plus the message,
leaving the file's output blob and name untouched. -/
theorem conversion_error_paths (settings : ConversionSettings) (ctxOk : Bool)
    (encode : ℤ × ℤ → Option Blob) (imgW imgH : ℕ) (i : ℕ)
    (f : ProcessedFile) (e : String) :
    convertImage none ctxOk encode settings =
      .error "Failed to load image" ∧
    (encode (computeTargetDims imgW imgH settings) = none →
      convertImage (some (imgW, imgH)) true encode settings =
        .error "Conversion failed") ∧
    (f.status ≠ .completed →
      processOne settings i f (.error e) =
        { f with
            status := .error
            error := some e } ∧
      (processOne settings i f (.error e)).outputBlob = f.outputBlob ∧
      (processOne settings i f (.error e)).newName = f.newName) := by
  refine ⟨rfl, ?_, ?_⟩
  · intro henc
    simp [convertImage, henc]
  · intro hnc
    have h := processOne_err settings i f e hnc
    exact ⟨h, by simp [h], by simp [h]⟩

/-- Witness for C7: an always-failing encoder on a 100×50 image, and an
error outcome applied to the idle sample file. -/
theorem conversion_error_paths_witness :
    convertImage none true (fun _ => none) sampleSettings =
      .error "Failed to load image" ∧
    convertImage (some (100, 50)) true (fun _ => none) sampleSettings =
      .error "Conversion failed" ∧
    processOne sampleSettings 0 sampleFile (.error "Failed to load image") =
      { sampleFile with
          status := ProcessStatus.error
          error := some "Failed to load image" } :=
  ⟨(conversion_error_paths sampleSettings true (fun _ => none) 100 50 0
      sampleFile "Failed to load image").1,
   (conversion_error_paths sampleSettings true (fun _ => none) 100 50 0
      sampleFile "Failed to load image").2.1 rfl,
   ((conversion_error_paths sampleSettings true (fun _ => none) 100 50 0
      sampleFile "Failed to load image").2.2 (by decide)).1⟩

/-- C9: every bulk download (zip or raw, all or selected) first filters to
completed files with an output blob, is a complete no-op exactly when that
filtered list is empty, and never includes a file in any other state. -/
theorem download_requires_ready (settings : ConversionSettings)
    (files : List ProcessedFile) (selectedIds : List String)
    (mode : DownloadMode) :
    (handleDownloadFiles settings files mode = none ↔ readyOf files = []) ∧
    (∀ f ∈ readyOf files,
      f.status = ProcessStatus.completed ∧ f.outputBlob.isSome) ∧
    onDownloadAll settings files mode = handleDownloadFiles settings files mode ∧
    onDownloadSelected settings files selectedIds mode =
      handleDownloadFiles settings
        (files.filter fun f => selectedIds.contains f.id) mode := by
  refine ⟨?_, ?_, rfl, rfl⟩
  · cases mode <;>
      · simp only [handleDownloadFiles]
        split <;> simp_all [List.length_eq_zero]
  · intro f hf
    simp only [readyOf, List.mem_filter, decide_eq_true_eq] at hf
    exact hf.2

/-- Witness for C9: the empty list downloads to nothing, and a completed
sample file with a blob passes the readiness filter. -/
theorem download_requires_ready_witness :
    handleDownloadFiles sampleSettings [] DownloadMode.zip = none ∧
    ({ sampleFile with
        status := ProcessStatus.completed
        outputBlob := some 3
        newName := some "a" } :
      ProcessedFile).status = ProcessStatus.completed ∧
    ({ sampleFile with
        status := ProcessStatus.completed
        outputBlob := some 3
        newName := some "a" } :
      ProcessedFile).outputBlob.isSome :=
  ⟨(download_requires_ready sampleSettings [] [] DownloadMode.zip).1.mpr rfl,
   ((download_requires_ready sampleSettings
      [{ sampleFile with
          status := ProcessStatus.completed
          outputBlob := some 3
          newName := some "a" }] [] DownloadMode.zip).2.1
      { sampleFile with
          status := ProcessStatus.completed
          outputBlob := some 3
          newName := some "a" } (by decide)).1,
   ((download_requires_ready sampleSettings
      [{ sampleFile with
          status := ProcessStatus.completed
          outputBlob := some 3
          newName := some "a" }] [] DownloadMode.zip).2.1
      { sampleFile with
          status := ProcessStatus.completed
          outputBlob := some 3
          newName := some "a" } (by decide)).2⟩
